import Mathlib

/-!
# Verification of the DTM sweep controller (Tools/Bluetooth/dtm_sweep.py)

A shallow embedding of the sweep/retry control logic of dtm_sweep.py.

The script's in-scope logic (spec §2) is: expand the comma-separated CLI
parameters, enumerate the Cartesian product of the parameter lists, run a
per-trial hardware protocol for each (parameter tuple, attenuation) pair,
compute the two directional PER values, track a running maximum, append one
CSV row per trial, and exit with a code derived from the maximum versus a
limit.

Hardware collaborators (BLE_hci, mini_RCDAT_USB) are not part of the
source tree under verification; per the spec (§6), the end-test command
"returns received packet count or an absence signal".  The two end-test
replies consumed by each trial attempt are therefore modelled as an oracle
of type Nat -> Option Nat × Option Nat (attempt index to the pair of
reported counts: first the slave's count, line 175, then the master's,
line 193).  All other hardware calls only matter for ordering, so the model
counts them (devCmds).

Python's floats are modelled as rationals; machine behaviour relevant to
the claims (TypeError on None / int, ValueError on int()/float() of a
non-numeric string, ZeroDivisionError) is modelled explicitly.
-/

/-! ## Models of the Python string primitives used at startup -/

/-- Python str.split(",") over the character list: splitting on every comma,
always at least one (possibly empty) group. -/
def splitCommaChars : List Char → List (List Char)
  | [] => [[]]
  | c :: cs =>
    match splitCommaChars cs with
    | [] => if c = ',' then [[], []] else [[c]]
    | g :: gs => if c = ',' then [] :: g :: gs else (c :: g) :: gs

/-- Python str.split(",") (the `match` default never fires:
splitCommaChars always returns a nonempty list). -/
def pySplitComma (s : String) : List String :=
  (splitCommaChars s.data).map fun cs => String.mk cs

/-- Python str.strip(): drop whitespace from both ends. -/
def pyStrip (s : String) : String :=
  String.mk (((s.data.dropWhile Char.isWhitespace).reverse.dropWhile Char.isWhitespace).reverse)

/-- Accumulate the value of a decimal digit string; absent on any
non-digit character. -/
def digitsValAux : Nat → List Char → Option Nat
  | acc, [] => some acc
  | acc, c :: cs =>
    if c.isDigit then digitsValAux (acc * 10 + (c.toNat - '0'.toNat)) cs
    else none

/-- Value of a nonempty decimal digit string, absent otherwise. -/
def digitsVal : List Char → Option Nat
  | [] => none
  | cs => digitsValAux 0 cs

/-- Modelled from the spec: Python int(string) for the ASCII decimal forms
used by this script (optional surrounding whitespace, optional sign);
absent (ValueError) when the string is not numeric. -/
def pyInt (s : String) : Option Int :=
  match (pyStrip s).data with
  | '-' :: rest => (digitsVal rest).map fun n => -(n : Int)
  | '+' :: rest => (digitsVal rest).map fun n => (n : Int)
  | rest => (digitsVal rest).map fun n => (n : Int)

/-- Split a character list at every '.' (same shape as splitCommaChars). -/
def splitDotChars : List Char → List (List Char)
  | [] => [[]]
  | c :: cs =>
    match splitDotChars cs with
    | [] => if c = '.' then [[], []] else [[c]]
    | g :: gs => if c = '.' then [] :: g :: gs else (c :: g) :: gs

/-- Magnitude of a Python float literal: digits with at most one decimal
point, as an exact rational. -/
def pyFloatMag (cs : List Char) : Option ℚ :=
  match splitDotChars cs with
  | [a] => (digitsVal a).map fun n => (n : ℚ)
  | [a, b] =>
    match digitsVal a, digitsVal b with
    | some an, some bn => some ((an : ℚ) + (bn : ℚ) / ((10 : ℚ) ^ b.length))
    | _, _ => none
  | _ => none

/-- Modelled from the spec: Python float(string) for plain decimal forms
(optional sign, digits, optional fractional part); absent (ValueError)
when the string is not numeric. -/
def pyFloat (s : String) : Option ℚ :=
  match (pyStrip s).data with
  | '-' :: rest => (pyFloatMag rest).map fun q => -q
  | '+' :: rest => pyFloatMag rest
  | rest => pyFloatMag rest

/-- Python range(start, stop, step) for a nonzero step, as a list of Ints. -/
def pythonRange (start stop step : Int) : List Int :=
  if 0 < step then
    (List.range (((stop - start).toNat + step.toNat - 1) / step.toNat)).map
      fun k => start + step * (k : Int)
  else if step < 0 then
    (List.range (((start - stop).toNat + (-step).toNat - 1) / (-step).toNat)).map
      fun k => start + step * (k : Int)
  else []

/-- Lines 90-97: the default attenuation list when no explicit -a list is
given: range(20, 90, step) (or [20, 70] when int(step) == 0), then 90
appended. -/
def defaultAttens (step : Int) : List Int :=
  (if step = 0 then [20, 70] else pythonRange 20 90 step) ++ [90]

attribute [local semireducible] Rat.mul Rat.inv Rat.add Rat.sub

example : defaultAttens 10 = [20, 30, 40, 50, 60, 70, 80, 90] := by decide
example : defaultAttens 0 = [20, 70, 90] := by decide
example : defaultAttens 35 = [20, 55, 90] := by decide
example : pySplitComma "20,90" = ["20", "90"] := by decide
example : pyInt "5000" = some 5000 := by decide
example : pyInt "abc" = none := by decide
example : pyFloat "0" = some 0 := by decide
example : ((5000 : ℚ) / 5000 * 100) = 100 := by decide

/-! ## The Cartesian product of the parameter lists (line 137)

itertools.product(packetLengths, numPackets, phys, txPowers, chan)
yields 5-tuples in nested-loop order: packet length outermost, channel
innermost. -/

/-- Line 137: the enumeration order of itertools.product, written as the
nested loops it is documented to be equivalent to. -/
def sweepTuples (pls nps phs tps chs : List String) :
    List (String × String × String × String × String) :=
  pls.flatMap fun pl =>
    nps.flatMap fun np =>
      phs.flatMap fun phy =>
        tps.flatMap fun tp =>
          chs.map fun ch => (pl, np, phy, tp, ch)

/-- Binary nested-loop product, used to reason about sweepTuples. -/
def prod2 {α β : Type} (l : List α) (m : List β) : List (α × β) :=
  l.flatMap fun a => m.map fun b => (a, b)

/-! ## The sweep state machine (lines 135-240)

One trial attempt is the body of the while loop (lines 142-211).  The
model tracks the rows written to the results file, the running maximum
PER (line 135), the Python locals perMaster/perSlave, the number of
device (HCI) commands issued, and a global attempt counter indexing the
oracle of end-test replies. -/

/-- One CSV data row (line 220).  The file prepends a minus sign to the
attenuation column; the row stores the raw atten value. -/
structure Row where
  packetLen : String
  numPkt : String
  phy : String
  atten : String
  txPower : String
  chan : String
  perMaster : ℚ
  perSlave : ℚ
deriving DecidableEq

/-- The uncaught Python exceptions the script can die with. -/
inductive PyErr where
  /-- TypeError: None / int at line 175 or 193. -/
  | typeErrorNone
  /-- ValueError from int(args.delay) at line 171 or 189. -/
  | valueErrorDelay
  /-- ValueError from int(numPkt) at line 175 or 193. -/
  | valueErrorNumPkt
  /-- ZeroDivisionError at line 175 or 193. -/
  | zeroDivision
  /-- ValueError from float(args.limit) at line 235. -/
  | valueErrorLimit
  /-- ValueError from int(args.step) at line 91. -/
  | valueErrorStep
deriving DecidableEq

/-- How the process ends: sys.exit (lines 238/240) or an uncaught
exception. -/
inductive Outcome where
  | exited (code : Nat)
  | crashed (e : PyErr)
deriving DecidableEq

/-- Mutable state of the sweep: rows written so far, perMax (line 135),
the Python locals perMaster/perSlave (read at line 220), the count of
HCI commands issued so far, and the index of the next trial attempt
(consumed from the oracle). -/
structure St where
  rows : List Row
  perMax : ℚ
  pmVar : ℚ
  psVar : ℚ
  devCmds : Nat
  attempt : Nat
deriving DecidableEq

/-- The parameters of the current tuple plus the run-wide inputs needed
inside a trial attempt. -/
structure TrialCtx where
  packetLen : String
  numPkt : String
  phy : String
  txPower : String
  chanV : String
  delayS : String
  oracle : Nat → Option Nat × Option Nat

/-- Models Python `x is None` for a variable that, at the point of the
check (line 199), always holds a float: the None case already raised
TypeError at the division computing it (line 175 / 193). -/
def pyIsNone (_ : ℚ) : Bool := false

/-- Result of one iteration of the while body (lines 142-211). -/
inductive AttemptOut where
  | crash (e : PyErr)
  | retry
  | ok (pm ps : ℚ)
deriving DecidableEq

/-- Line 140. -/
def RETRY : Nat := 2

/-- One iteration of the while body, lines 142-211.  Device commands and
conversion points appear in source order:
7 HCI commands (two resets, phyFunc, two txPowerFunc, rxTestFunc,
txTestVSFunc, lines 152-169), sleep(int(args.delay)) (line 171), two
endTestFunc calls (174-175), int(numPkt) and the division of line 175,
4 HCI commands (two resets, rxTestFunc, txTestVSFunc, lines 179-186),
sleep(int(args.delay)) (line 189), two endTestFunc calls (192-193) and
the division of line 193, then the None check of line 199. -/
def attemptOnce (c : TrialCtx) (st : St) : St × AttemptOut :=
  match pyInt c.delayS with
  | none => ({ st with attempt := st.attempt + 1, devCmds := st.devCmds + 7 },
             .crash .valueErrorDelay)
  | some _ =>
    match pyInt c.numPkt with
    | none => ({ st with attempt := st.attempt + 1, devCmds := st.devCmds + 9 },
               .crash .valueErrorNumPkt)
    | some np =>
      match (c.oracle st.attempt).1 with
      | none => ({ st with attempt := st.attempt + 1, devCmds := st.devCmds + 9 },
                 .crash .typeErrorNone)
      | some s =>
        if np = 0 then
          ({ st with attempt := st.attempt + 1, devCmds := st.devCmds + 9 },
           .crash .zeroDivision)
        else
          match pyInt c.delayS with
          | none => ({ st with attempt := st.attempt + 1, devCmds := st.devCmds + 13 },
                     .crash .valueErrorDelay)
          | some _ =>
            match (c.oracle st.attempt).2 with
            | none => ({ st with attempt := st.attempt + 1, devCmds := st.devCmds + 15 },
                       .crash .typeErrorNone)
            | some m =>
              if pyIsNone ((m : ℚ) / (np : ℚ) * 100) || pyIsNone ((s : ℚ) / (np : ℚ) * 100) then
                ({ st with attempt := st.attempt + 1, devCmds := st.devCmds + 15 },
                 .retry)
              else
                ({ st with attempt := st.attempt + 1, devCmds := st.devCmds + 15 },
                 .ok ((m : ℚ) / (np : ℚ) * 100) ((s : ℚ) / (np : ℚ) * 100))

/-- How the while loop of lines 141-211 ends (apart from retry, which
re-enters it). -/
inductive LoopExit where
  | crash (e : PyErr)
  | finished
deriving DecidableEq

/-- The while loop of lines 141-211, driven by fuel; the wrapper
attemptLoop supplies fuel = RETRY - per100, so the fuel-exhausted case
coincides with the loop condition per100 < RETRY being false (the retry
branch increments per100 by one each time round). -/
def attemptLoopAux (c : TrialCtx) : Nat → Nat → St → St × Nat × LoopExit
  | 0, per100, st => (st, per100, .finished)
  | fuel + 1, per100, st =>
    if per100 < RETRY then
      match attemptOnce c st with
      | (st', .crash e) => (st', per100, .crash e)
      | (st', .retry) => attemptLoopAux c fuel (per100 + 1) st'
      | (st', .ok pm ps) =>
        ({ st' with pmVar := pm, psVar := ps,
                    perMax := max (max st'.perMax pm) ps }, per100, .finished)
    else (st, per100, .finished)

/-- The while loop of lines 141-211: on a successful attempt it records
the two PER values (lines 175/193) and updates perMax (lines 204-208)
before breaking (line 211). -/
def attemptLoop (c : TrialCtx) (st : St) (per100 : Nat) : St × Nat × LoopExit :=
  attemptLoopAux c (RETRY - per100) per100 st

/-- The row written at line 220 for the current tuple and attenuation. -/
def mkRow (c : TrialCtx) (atten : String) (pm ps : ℚ) : Row :=
  { packetLen := c.packetLen, numPkt := c.numPkt, phy := c.phy,
    atten := atten, txPower := c.txPower, chan := c.chanV,
    perMaster := pm, perSlave := ps }

/-- Body of the `for atten in attens` loop (lines 139-222): run the while
loop, apply the give-up branch of lines 213-217 when per100 >= RETRY,
then append one row (line 220). -/
def attenStep (c : TrialCtx) (atten : String) (st : St) (per100 : Nat) :
    (St × PyErr) ⊕ (St × Nat) :=
  match attemptLoop c st per100 with
  | (st', _, .crash e) => .inl (st', e)
  | (st', per100', .finished) =>
    let st'' := if RETRY ≤ per100' then
                  { st' with pmVar := 100, psVar := 100, perMax := 100 }
                else st'
    .inr ({ st'' with rows := st''.rows ++ [mkRow c atten st''.pmVar st''.psVar] },
          per100')

/-- The `for atten in attens` loop: per100 is threaded from one
attenuation level to the next (it is reset only per parameter tuple,
line 138). -/
def attensLoop (c : TrialCtx) : List String → St → Nat → (St × PyErr) ⊕ (St × Nat)
  | [], st, per100 => .inr (st, per100)
  | a :: rest, st, per100 =>
    match attenStep c a st per100 with
    | .inl crash => .inl crash
    | .inr (st', per100') => attensLoop c rest st' per100'

/-- The outer `for ... in itertools.product(...)` loop (lines 137-222):
per_100 = 0 at the start of each parameter tuple (line 138). -/
def tuplesLoop (delayS : String) (oracle : Nat → Option Nat × Option Nat)
    (attens : List String) :
    List (String × String × String × String × String) → St → (St × PyErr) ⊕ St
  | [], st => .inr st
  | (pl, np, phy, tp, ch) :: rest, st =>
    let c : TrialCtx := { packetLen := pl, numPkt := np, phy := phy, txPower := tp,
                          chanV := ch, delayS := delayS, oracle := oracle }
    match attensLoop c attens st 0 with
    | .inl crash => .inl crash
    | .inr (st', _) => tuplesLoop delayS oracle attens rest st'

/-- Lines 235-240: exit code 1 iff float(limit) is nonzero and perMax
exceeds it, else 0. -/
def exitDecision (l perMax : ℚ) : Nat :=
  if l ≠ 0 then (if perMax > l then 1 else 0) else 0

/-- What the whole process did: rows written to the results file, final
perMax, total HCI commands, and how it ended. -/
structure SweepResult where
  rows : List Row
  perMax : ℚ
  devCmds : Nat
  outcome : Outcome
deriving DecidableEq

/-- Lines 135-240 given already-expanded parameter lists: run the nested
sweep from the initial state (perMax = 0, line 135), do the final resets
(lines 226-227), then the limit check of lines 235-240.  The Python
locals perMaster/perSlave are modelled with initial value 0; every path
that reads them at line 220 has assigned them first. -/
def runSweep (pls nps phs tps chs attens : List String) (delayS limitS : String)
    (oracle : Nat → Option Nat × Option Nat) : SweepResult :=
  let st0 : St := { rows := [], perMax := 0, pmVar := 0, psVar := 0,
                    devCmds := 0, attempt := 0 }
  match tuplesLoop delayS oracle attens (sweepTuples pls nps phs tps chs) st0 with
  | .inl (st, e) =>
    { rows := st.rows, perMax := st.perMax, devCmds := st.devCmds,
      outcome := .crashed e }
  | .inr st =>
    match pyFloat limitS with
    | none =>
      { rows := st.rows, perMax := st.perMax, devCmds := st.devCmds + 2,
        outcome := .crashed .valueErrorLimit }
    | some l =>
      { rows := st.rows, perMax := st.perMax, devCmds := st.devCmds + 2,
        outcome := .exited (exitDecision l st.perMax) }

/-- The relevant command-line inputs (argparse, lines 62-80), with the
same defaults. -/
structure Args where
  delay : String := "5"
  limit : String := "0"
  phys : String := "1"
  channel : String := "0"
  txpows : String := "0"
  attens : Option String := none
  step : String := "10"
  pktlen : String := "250"
  numpkt : String := "5000"

/-- Lines 84-99 then 135-240: strip and split the comma-separated lists
(lines 84-88), build the attenuation list (lines 90-99: int(args.step)
is converted, and can raise, only when no -a list is given), then run
the sweep. -/
def dtmSweepMain (a : Args) (oracle : Nat → Option Nat × Option Nat) : SweepResult :=
  let pls := pySplitComma (pyStrip a.pktlen)
  let nps := pySplitComma (pyStrip a.numpkt)
  let phs := pySplitComma (pyStrip a.phys)
  let tps := pySplitComma (pyStrip a.txpows)
  let chs := pySplitComma (pyStrip a.channel)
  match a.attens with
  | some astr =>
    runSweep pls nps phs tps chs (pySplitComma (pyStrip astr)) a.delay a.limit oracle
  | none =>
    match pyInt a.step with
    | none => { rows := [], perMax := 0, devCmds := 0, outcome := .crashed .valueErrorStep }
    | some s =>
      runSweep pls nps phs tps chs ((defaultAttens s).map fun i => toString i)
        a.delay a.limit oracle

/-- perMax update rule per written row, lines 204-208 (and 213-217 for
the give-up row, where the assignment perMax = 100 agrees with this rule
because the running maximum never exceeds 100 on the paths that reach
it). -/
def perStep (m : ℚ) (r : Row) : ℚ := max (max m r.perMaster) r.perSlave

example :
    (runSweep ["250"] ["5000"] ["1"] ["0"] ["0"] ["20", "90"] "1" "0"
      (fun _ => (some 5000, some 5000))).perMax = 100 := by decide
example :
    (runSweep ["250"] ["5000"] ["1"] ["0"] ["0"] ["20", "90"] "1" "0"
      (fun _ => (some 5000, some 5000))).outcome = .exited 0 := by decide
example :
    (runSweep ["250"] ["5000"] ["1"] ["0"] ["0"] ["20"] "1" "0"
      (fun _ => (none, some 5000))).outcome = .crashed .typeErrorNone := by decide
example :
    (dtmSweepMain { delay := "1", attens := some "20,90" }
      (fun _ => (some 5000, some 5000))).rows.length = 2 := by decide

/-! ## Characterization lemmas for the trial attempt and the loops -/

theorem attemptOnce_not_retry (c : TrialCtx) (st : St) :
    (attemptOnce c st).2 ≠ AttemptOut.retry := by
  unfold attemptOnce
  repeat' split
  all_goals simp_all [pyIsNone]

theorem attemptOnce_frame (c : TrialCtx) (st st' : St) (out : AttemptOut)
    (h : attemptOnce c st = (st', out)) :
    st'.rows = st.rows ∧ st'.perMax = st.perMax ∧ st'.attempt = st.attempt + 1 := by
  have h1 : (attemptOnce c st).1 = st' := by rw [h]
  rw [← h1]
  clear h h1
  unfold attemptOnce
  repeat' split
  all_goals simp

theorem attemptOnce_ok (c : TrialCtx) (st st' : St) (pm ps : ℚ)
    (h : attemptOnce c st = (st', .ok pm ps)) :
    ∃ np s m, pyInt c.numPkt = some np ∧ np ≠ 0 ∧
      c.oracle st.attempt = (some s, some m) ∧
      pm = (m : ℚ) / (np : ℚ) * 100 ∧ ps = (s : ℚ) / (np : ℚ) * 100 ∧
      st' = { st with attempt := st.attempt + 1, devCmds := st.devCmds + 15 } := by
  rcases hd : pyInt c.delayS with _ | d
  · simp [attemptOnce, hd] at h
  rcases hn : pyInt c.numPkt with _ | np
  · simp [attemptOnce, hd, hn] at h
  rcases ho1 : (c.oracle st.attempt).1 with _ | s
  · simp [attemptOnce, hd, hn, ho1] at h
  by_cases hz : np = 0
  · simp [attemptOnce, hd, hn, ho1, hz] at h
  rcases ho2 : (c.oracle st.attempt).2 with _ | m
  · simp [attemptOnce, hd, hn, ho1, hz, ho2] at h
  simp only [attemptOnce, hd, hn, ho1, ho2, hz, pyIsNone, Bool.or_self,
    Bool.false_eq_true, if_false, ite_false, Prod.mk.injEq] at h
  obtain ⟨h1, h2⟩ := h
  obtain ⟨h2, h3⟩ := AttemptOut.ok.inj h2
  exact ⟨np, s, m, rfl, hz, Prod.ext_iff.mpr ⟨ho1, ho2⟩, h2.symm, h3.symm, h1.symm⟩

theorem attemptLoop_ge (c : TrialCtx) (st : St) (per100 : Nat)
    (h : RETRY ≤ per100) :
    attemptLoop c st per100 = (st, per100, .finished) := by
  unfold attemptLoop
  rw [Nat.sub_eq_zero_of_le h]
  rfl

theorem attemptLoop_lt (c : TrialCtx) (st : St) (per100 : Nat)
    (h : per100 < RETRY) :
    (∃ st' e, attemptOnce c st = (st', .crash e) ∧
       attemptLoop c st per100 = (st', per100, .crash e)) ∨
    (∃ st' pm ps, attemptOnce c st = (st', .ok pm ps) ∧
       attemptLoop c st per100 =
         ({ st' with pmVar := pm, psVar := ps,
                     perMax := max (max st'.perMax pm) ps }, per100, .finished)) := by
  obtain ⟨f, hf⟩ : ∃ f, RETRY - per100 = f + 1 := ⟨RETRY - per100 - 1, by omega⟩
  unfold attemptLoop
  rw [hf]
  rcases hao : attemptOnce c st with ⟨st', out⟩
  cases out with
  | crash e =>
    left
    exact ⟨st', e, rfl, by simp [attemptLoopAux, h, hao]⟩
  | retry => exact absurd (by rw [hao]) (attemptOnce_not_retry c st)
  | ok pm ps =>
    right
    exact ⟨st', pm, ps, rfl, by simp [attemptLoopAux, h, hao]⟩

theorem attenStep_giveup (c : TrialCtx) (a : String) (st : St) (per100 : Nat)
    (h : RETRY ≤ per100) :
    attenStep c a st per100 =
      .inr ({ st with pmVar := 100, psVar := 100, perMax := 100,
                      rows := st.rows ++ [mkRow c a 100 100] }, per100) := by
  unfold attenStep
  rw [attemptLoop_ge c st per100 h]
  simp [h]

theorem attenStep_zero (c : TrialCtx) (a : String) (st : St) :
    (∃ st' e, attemptOnce c st = (st', .crash e) ∧
       attenStep c a st 0 = .inl (st', e)) ∨
    (∃ st' pm ps, attemptOnce c st = (st', .ok pm ps) ∧
       attenStep c a st 0 =
         .inr ({ st' with pmVar := pm, psVar := ps,
                          perMax := max (max st'.perMax pm) ps,
                          rows := st'.rows ++ [mkRow c a pm ps] }, 0)) := by
  rcases attemptLoop_lt c st 0 (by decide) with ⟨st', e, hao, hloop⟩ | ⟨st', pm, ps, hao, hloop⟩
  · left
    exact ⟨st', e, hao, by unfold attenStep; rw [hloop]⟩
  · right
    refine ⟨st', pm, ps, hao, ?_⟩
    unfold attenStep
    rw [hloop]
    simp [RETRY]

/-- Rows-and-perMax invariant: from state st the loop reached st', having
appended rows Δ, and perMax evolved by folding perStep over Δ. -/
def RowsFold (st st' : St) : Prop :=
  ∃ Δ, st'.rows = st.rows ++ Δ ∧ st'.perMax = Δ.foldl perStep st.perMax

theorem rowsFold_refl (st : St) : RowsFold st st := ⟨[], by simp, by simp⟩

theorem rowsFold_trans {st st' st'' : St} (h1 : RowsFold st st')
    (h2 : RowsFold st' st'') : RowsFold st st'' := by
  obtain ⟨d1, hr1, hp1⟩ := h1
  obtain ⟨d2, hr2, hp2⟩ := h2
  exact ⟨d1 ++ d2, by rw [hr2, hr1, List.append_assoc],
    by rw [hp2, hp1, List.foldl_append]⟩

theorem attensLoop_zero_fold (c : TrialCtx) (attens : List String) (st : St) :
    (∃ st' e, attensLoop c attens st 0 = .inl (st', e) ∧ RowsFold st st') ∨
    (∃ st', attensLoop c attens st 0 = .inr (st', 0) ∧ RowsFold st st') := by
  induction attens generalizing st with
  | nil => exact .inr ⟨st, rfl, rowsFold_refl st⟩
  | cons a rest ih =>
    rcases attenStep_zero c a st with ⟨st', e, hao, hstep⟩ | ⟨st', pm, ps, hao, hstep⟩
    · left
      refine ⟨st', e, ?_, ?_⟩
      · unfold attensLoop
        rw [hstep]
      · have hf := attemptOnce_frame c st st' _ hao
        exact ⟨[], by simp [hf.1], by simp [hf.2.1]⟩
    · have hf := attemptOnce_frame c st st' _ hao
      have hfold : RowsFold st
          ({ st' with
             pmVar := pm, psVar := ps,
             perMax := max (max st'.perMax pm) ps,
             rows := st'.rows ++ [mkRow c a pm ps] } : St) := by
        refine ⟨[mkRow c a pm ps], by simp [hf.1], ?_⟩
        simp [perStep, mkRow, hf.2.1]
      rcases ih ({ st' with
          pmVar := pm, psVar := ps,
          perMax := max (max st'.perMax pm) ps,
          rows := st'.rows ++ [mkRow c a pm ps] }) with
        ⟨st'', e, hrest, hfold'⟩ | ⟨st'', hrest, hfold'⟩
      · left
        refine ⟨st'', e, ?_, rowsFold_trans hfold hfold'⟩
        simp only [attensLoop, hstep, hrest]
      · right
        refine ⟨st'', ?_, rowsFold_trans hfold hfold'⟩
        simp only [attensLoop, hstep, hrest]

theorem tuplesLoop_fold (delayS : String) (oracle : Nat → Option Nat × Option Nat)
    (attens : List String)
    (tuples : List (String × String × String × String × String)) (st : St) :
    (∃ st' e, tuplesLoop delayS oracle attens tuples st = .inl (st', e) ∧
       RowsFold st st') ∨
    (∃ st', tuplesLoop delayS oracle attens tuples st = .inr st' ∧ RowsFold st st') := by
  induction tuples generalizing st with
  | nil => exact .inr ⟨st, rfl, rowsFold_refl st⟩
  | cons t rest ih =>
    obtain ⟨pl, np, phy, tp, ch⟩ := t
    rcases attensLoop_zero_fold
        { packetLen := pl, numPkt := np, phy := phy, txPower := tp,
          chanV := ch, delayS := delayS, oracle := oracle } attens st with
      ⟨st', e, hal, hfold⟩ | ⟨st', hal, hfold⟩
    · left
      refine ⟨st', e, ?_, hfold⟩
      simp only [tuplesLoop, hal]
    · rcases ih st' with ⟨st'', e, hrest, hfold'⟩ | ⟨st'', hrest, hfold'⟩
      · left
        refine ⟨st'', e, ?_, rowsFold_trans hfold hfold'⟩
        simp only [tuplesLoop, hal, hrest]
      · right
        refine ⟨st'', ?_, rowsFold_trans hfold hfold'⟩
        simp only [tuplesLoop, hal, hrest]

theorem runSweep_fold (pls nps phs tps chs attens : List String)
    (delayS limitS : String) (oracle : Nat → Option Nat × Option Nat) :
    (runSweep pls nps phs tps chs attens delayS limitS oracle).perMax =
      (runSweep pls nps phs tps chs attens delayS limitS oracle).rows.foldl perStep 0 := by
  rcases tuplesLoop_fold delayS oracle attens (sweepTuples pls nps phs tps chs)
      { rows := [], perMax := 0, pmVar := 0, psVar := 0, devCmds := 0, attempt := 0 } with
    ⟨st', e, htl, Δ, hr, hp⟩ | ⟨st', htl, Δ, hr, hp⟩
  · simp only [runSweep, htl]
    simp at hr
    simp [hr, hp]
  · simp only [runSweep, htl]
    rcases hl : pyFloat limitS with _ | l
    · simp only [hl]
      simp at hr
      simp [hr, hp]
    · simp only [hl]
      simp at hr
      simp [hr, hp]

/-! ## Order lemmas for the perMax fold -/

theorem le_perStep (q : ℚ) (r : Row) : q ≤ perStep q r :=
  le_trans (le_max_left q r.perMaster) (le_max_left _ _)

theorem le_foldl_perStep (Δ : List Row) (q : ℚ) : q ≤ Δ.foldl perStep q := by
  induction Δ generalizing q with
  | nil => simp
  | cons r Δ ih => exact le_trans (le_perStep q r) (ih (perStep q r))

theorem mem_le_foldl_perStep (Δ : List Row) (q : ℚ) (r : Row) (h : r ∈ Δ) :
    r.perMaster ≤ Δ.foldl perStep q ∧ r.perSlave ≤ Δ.foldl perStep q := by
  induction Δ generalizing q with
  | nil => cases h
  | cons a Δ ih =>
    rcases List.mem_cons.mp h with rfl | h'
    · constructor
      · exact le_trans (le_trans (le_max_right q r.perMaster) (le_max_left _ _))
          (le_foldl_perStep Δ (perStep q r))
      · exact le_trans (le_max_right _ _) (le_foldl_perStep Δ (perStep q r))
    · simpa using ih (perStep q a) h'

theorem perStep_cases (q : ℚ) (r : Row) :
    perStep q r = q ∨ perStep q r = max r.perMaster r.perSlave := by
  unfold perStep
  rcases le_total r.perSlave (max q r.perMaster) with hps | hps
  · rw [max_eq_left hps]
    rcases le_total r.perMaster q with hpm | hpm
    · left
      exact max_eq_left hpm
    · right
      rw [max_eq_right hpm]
      rw [max_eq_right hpm] at hps
      exact (max_eq_left hps).symm
  · rw [max_eq_right hps]
    right
    exact (max_eq_right (le_trans (le_max_right q r.perMaster) hps)).symm

theorem foldl_perStep_attain (Δ : List Row) (q : ℚ) :
    Δ.foldl perStep q = q ∨ ∃ r ∈ Δ, Δ.foldl perStep q = max r.perMaster r.perSlave := by
  induction Δ generalizing q with
  | nil => left; rfl
  | cons a Δ ih =>
    rw [List.foldl_cons]
    rcases ih (perStep q a) with h | ⟨r, hr, hv⟩
    · rcases perStep_cases q a with hc | hc
      · left
        rw [h, hc]
      · right
        exact ⟨a, List.mem_cons_self a Δ, by rw [h, hc]⟩
    · right
      exact ⟨r, List.mem_cons_of_mem a hr, hv⟩

theorem head?_scanl (f : ℚ → Row → ℚ) (q : ℚ) (Δ : List Row) :
    (Δ.scanl f q).head? = some q := by
  cases Δ <;> simp [List.scanl]

theorem chain'_scanl_perStep (Δ : List Row) (q : ℚ) :
    List.Chain' (· ≤ ·) (Δ.scanl perStep q) := by
  induction Δ generalizing q with
  | nil => simp [List.scanl]
  | cons r Δ ih =>
    rw [List.scanl]
    refine List.chain'_cons'.mpr ⟨?_, ih (perStep q r)⟩
    intro b hb
    rw [head?_scanl] at hb
    cases hb
    exact le_perStep q r

/-! ## The claims -/

/-- Claim C4: in every run, the running maximum PER evolves by folding the
update rule of lines 204-208 over the rows in order, hence it is
monotonically non-decreasing across trials, it bounds every recorded
master/slave PER value, and (for a run with at least one row, all of
whose recorded values are the nonnegative values normal operation
produces) it is attained by some recorded row, i.e. it equals the true
maximum of all recorded values. -/
theorem claim_c4 (pls nps phs tps chs attens : List String) (delayS limitS : String)
    (oracle : Nat → Option Nat × Option Nat) (R : SweepResult)
    (hR : R = runSweep pls nps phs tps chs attens delayS limitS oracle) :
    R.perMax = R.rows.foldl perStep 0 ∧
    List.Chain' (· ≤ ·) (R.rows.scanl perStep 0) ∧
    (∀ r ∈ R.rows, r.perMaster ≤ R.perMax ∧ r.perSlave ≤ R.perMax) ∧
    (R.rows ≠ [] → (∀ r ∈ R.rows, 0 ≤ r.perMaster ∧ 0 ≤ r.perSlave) →
      ∃ r ∈ R.rows, R.perMax = max r.perMaster r.perSlave) := by
  subst hR
  have hfold := runSweep_fold pls nps phs tps chs attens delayS limitS oracle
  refine ⟨hfold, chain'_scanl_perStep _ 0, ?_, ?_⟩
  · intro r hr
    rw [hfold]
    exact mem_le_foldl_perStep _ 0 r hr
  · intro hne hnn
    rcases foldl_perStep_attain
        (runSweep pls nps phs tps chs attens delayS limitS oracle).rows 0 with h0 | ⟨r, hr, hv⟩
    · rcases List.exists_cons_of_ne_nil hne with ⟨r, Δ, hcons⟩
      have hmem : r ∈ (runSweep pls nps phs tps chs attens delayS limitS oracle).rows := by
        rw [hcons]
        exact List.mem_cons_self r Δ
      refine ⟨r, hmem, le_antisymm ?_ ?_⟩
      · rw [hfold, h0]
        exact le_max_of_le_left (hnn r hmem).1
      · have hb := mem_le_foldl_perStep
          (runSweep pls nps phs tps chs attens delayS limitS oracle).rows 0 r hmem
        rw [← hfold] at hb
        exact max_le hb.1 hb.2
    · exact ⟨r, hr, by rw [hfold, hv]⟩

/-- Witness for C4 at a concrete completed run (two rows, PER values 50
and 100): the running maximum is attained by a recorded row. -/
theorem claim_c4_witness :
    ∃ r ∈ (runSweep ["250"] ["5000"] ["1"] ["0"] ["0"] ["20", "90"] "1" "0"
        (fun _ => (some 2500, some 5000))).rows,
      (runSweep ["250"] ["5000"] ["1"] ["0"] ["0"] ["20", "90"] "1" "0"
        (fun _ => (some 2500, some 5000))).perMax = max r.perMaster r.perSlave :=
  (claim_c4 ["250"] ["5000"] ["1"] ["0"] ["0"] ["20", "90"] "1" "0"
      (fun _ => (some 2500, some 5000)) _ rfl).2.2.2 (by decide) (by decide)

/-- Claim C1 (code bug): when the slave's end-test call reports no count
(the absence signal) on the first trial, the process does not retry: the
expression of line 175 raises TypeError (None / int) and the run dies
with no retry performed and no row ever written.  The None check of line
199 sits after the division that already raised. -/
theorem claim_c1 :
    (runSweep ["250"] ["5000"] ["1"] ["0"] ["0"] ["20"] "1" "0"
        (fun _ => (none, some 5000))).outcome = .crashed .typeErrorNone ∧
    (runSweep ["250"] ["5000"] ["1"] ["0"] ["0"] ["20"] "1" "0"
        (fun _ => (none, some 5000))).rows = [] ∧
    (runSweep ["250"] ["5000"] ["1"] ["0"] ["0"] ["20"] "1" "0"
        (fun _ => (none, some 5000))).devCmds = 9 := by
  decide

/-- Claim C2 (code bug): with end-test reporting no count on every
attempt, the trial never "fails twice": the very first unavailable
measurement kills the process (TypeError at line 175), so no forced
sentinel row is ever produced for any (tuple, attenuation) pair — the
devCmds count 9 shows a single partial attempt ran.  (Independently, the
retry counter per_100 of line 138 is reset per parameter tuple, not per
pair.) -/
theorem claim_c2 :
    (runSweep ["250"] ["5000"] ["1"] ["0"] ["0"] ["20", "90"] "1" "0"
        (fun _ => (none, none))).outcome = .crashed .typeErrorNone ∧
    (runSweep ["250"] ["5000"] ["1"] ["0"] ["0"] ["20", "90"] "1" "0"
        (fun _ => (none, none))).rows = [] ∧
    (runSweep ["250"] ["5000"] ["1"] ["0"] ["0"] ["20", "90"] "1" "0"
        (fun _ => (none, none))).devCmds = 9 := by
  decide

/-- Claim C3, counterexample: with the stated inputs and hardware
reporting full reception of all 5000 requested packets, the run does
produce two rows and exit code 0, but the final running maximum PER is
not 0 — the code computes receivedCount / requestedCount * 100, which is
100 on full reception. -/
theorem claim_c3_counterexample :
    (dtmSweepMain
      { delay := "1", limit := "0", phys := "1", channel := "0",
        txpows := "0", attens := some "20,90", pktlen := "250", numpkt := "5000" }
      (fun _ => (some 5000, some 5000))).rows.length = 2 ∧
    ¬ (dtmSweepMain
      { delay := "1", limit := "0", phys := "1", channel := "0",
        txpows := "0", attens := some "20,90", pktlen := "250", numpkt := "5000" }
      (fun _ => (some 5000, some 5000))).perMax = 0 := by
  decide

/-- Claim C3 as amended: with packetLen=250, numPkt=5000, phy=1,
txPower=0, channel=0, attens=[20,90], delay=1 and hardware reporting
full reception, the run produces exactly two result rows whose PER
values are 100 in both directions (the code's formula
receivedCount/requestedCount*100 yields 100 on full reception), a final
running maximum PER of 100, and exit code 0. -/
theorem claim_c3 :
    (dtmSweepMain
      { delay := "1", limit := "0", phys := "1", channel := "0",
        txpows := "0", attens := some "20,90", pktlen := "250", numpkt := "5000" }
      (fun _ => (some 5000, some 5000))).rows.map
          (fun r => (r.perMaster, r.perSlave)) = [(100, 100), (100, 100)] ∧
    (dtmSweepMain
      { delay := "1", limit := "0", phys := "1", channel := "0",
        txpows := "0", attens := some "20,90", pktlen := "250", numpkt := "5000" }
      (fun _ => (some 5000, some 5000))).perMax = 100 ∧
    (dtmSweepMain
      { delay := "1", limit := "0", phys := "1", channel := "0",
        txpows := "0", attens := some "20,90", pktlen := "250", numpkt := "5000" }
      (fun _ => (some 5000, some 5000))).outcome = .exited 0 := by
  decide

/-- Claim C6: the process exits 0 whenever the parsed limit is zero
regardless of perMax; it exits 1 iff the limit is nonzero and perMax
exceeds it, and 0 otherwise; and every normally-exiting run's code is
exactly this decision applied to the parsed limit and the final running
maximum (lines 235-240). -/
theorem claim_c6 :
    (∀ l pm : ℚ,
      (l = 0 → exitDecision l pm = 0) ∧
      (exitDecision l pm = 1 ↔ (l ≠ 0 ∧ pm > l)) ∧
      (¬ (l ≠ 0 ∧ pm > l) → exitDecision l pm = 0)) ∧
    (∀ (pls nps phs tps chs attens : List String) (delayS limitS : String)
       (oracle : Nat → Option Nat × Option Nat) (c : Nat),
      (runSweep pls nps phs tps chs attens delayS limitS oracle).outcome = .exited c →
      ∃ l, pyFloat limitS = some l ∧
        c = exitDecision l (runSweep pls nps phs tps chs attens delayS limitS oracle).perMax) := by
  constructor
  · intro l pm
    refine ⟨?_, ?_, ?_⟩
    · intro h
      simp [exitDecision, h]
    · unfold exitDecision
      by_cases h0 : l = 0
      · simp [h0]
      · by_cases hgt : pm > l
        · simp [h0, hgt]
        · simp [h0, hgt]
    · intro h
      unfold exitDecision
      by_cases h0 : l = 0
      · simp [h0]
      · have : ¬ pm > l := fun hgt => h ⟨h0, hgt⟩
        simp [h0, this]
  · intro pls nps phs tps chs attens delayS limitS oracle c h
    rcases htl : tuplesLoop delayS oracle attens (sweepTuples pls nps phs tps chs)
        { rows := [], perMax := 0, pmVar := 0, psVar := 0, devCmds := 0,
          attempt := 0 } with ⟨st, e⟩ | st
    · simp only [runSweep, htl] at h
      simp at h
    · rcases hl : pyFloat limitS with _ | l
      · simp only [runSweep, htl, hl] at h
        simp at h
      · simp only [runSweep, htl, hl] at h
        simp only [runSweep, htl, hl]
        simp at h
        exact ⟨l, rfl, h.symm⟩

/-- Witness for C6: a nonzero limit of 1 with perMax 2 gives exit code 1;
a zero limit with perMax 100 gives exit code 0. -/
theorem claim_c6_witness : exitDecision 1 2 = 1 ∧ exitDecision 0 100 = 0 :=
  ⟨(claim_c6.1 1 2).2.1.mpr ⟨by norm_num, by norm_num⟩, (claim_c6.1 0 100).1 rfl⟩

/-- Claim C10: once the retry counter has reached the budget at the start
of an attenuation level, the rest of the attenuation levels of the same
parameter tuple each emit one forced (100, 100) sentinel row while
issuing no device command and consuming no end-test reply (the while
guard of line 141 skips the trial, lines 213-220 fire); and at the start
of the next parameter tuple the counter is 0 again (line 138). -/
theorem claim_c10 :
    (∀ (c : TrialCtx) (attens : List String) (st : St) (per100 : Nat),
      RETRY ≤ per100 →
      ∃ st', attensLoop c attens st per100 = .inr (st', per100) ∧
        st'.rows = st.rows ++ attens.map (fun a => mkRow c a 100 100) ∧
        st'.devCmds = st.devCmds ∧ st'.attempt = st.attempt) ∧
    (∀ (delayS : String) (oracle : Nat → Option Nat × Option Nat)
       (attens : List String) (pl np phy tp ch : String)
       (rest : List (String × String × String × String × String)) (st : St),
      tuplesLoop delayS oracle attens ((pl, np, phy, tp, ch) :: rest) st =
        match attensLoop
            { packetLen := pl, numPkt := np, phy := phy, txPower := tp,
              chanV := ch, delayS := delayS, oracle := oracle } attens st 0 with
        | .inl crash => .inl crash
        | .inr (st', _) => tuplesLoop delayS oracle attens rest st') := by
  constructor
  · intro c attens
    induction attens with
    | nil => exact fun st per100 _ => ⟨st, rfl, by simp, rfl, rfl⟩
    | cons a rest ih =>
      intro st per100 h
      obtain ⟨st', h1, h2, h3, h4⟩ := ih
        ({ st with pmVar := 100, psVar := 100, perMax := 100,
                   rows := st.rows ++ [mkRow c a 100 100] }) per100 h
      refine ⟨st', ?_, ?_, h3, h4⟩
      · simp only [attensLoop, attenStep_giveup c a st per100 h, h1]
      · rw [h2]
        simp
  · intro delayS oracle attens pl np phy tp ch rest st
    rfl

/-- Witness for C10: with the counter already at the budget, a two-level
attenuation list yields exactly the two forced sentinel rows and no
device command. -/
theorem claim_c10_witness :
    ∃ st', attensLoop
        { packetLen := "250", numPkt := "5000", phy := "1", txPower := "0",
          chanV := "0", delayS := "1", oracle := fun _ => (some 5000, some 5000) }
        ["20", "90"]
        { rows := [], perMax := 0, pmVar := 0, psVar := 0, devCmds := 0, attempt := 0 }
        2 = .inr (st', 2) ∧
      st'.rows = [] ++ ["20", "90"].map
        (fun a => mkRow
          { packetLen := "250", numPkt := "5000", phy := "1", txPower := "0",
            chanV := "0", delayS := "1", oracle := fun _ => (some 5000, some 5000) }
          a 100 100) ∧
      st'.devCmds = 0 ∧ st'.attempt = 0 :=
  claim_c10.1 _ ["20", "90"] _ 2 (by decide)

/-- Claim C8: (1) every trial attempt that obtains both directional
counts yields perSlave = slaveCount/numPkt*100 and
perMaster = masterCount/numPkt*100 (lines 175 and 193); (2) whenever the
requested count is positive and each reported count is at most the
requested count, both values lie in [0, 100]; (3) the give-up branch of
lines 213-217 records exactly 100 for both directions in the row it
writes. -/
theorem claim_c8 :
    (∀ (c : TrialCtx) (st st' : St) (pm ps : ℚ),
      attemptOnce c st = (st', .ok pm ps) →
      ∃ np s m, pyInt c.numPkt = some np ∧ np ≠ 0 ∧
        c.oracle st.attempt = (some s, some m) ∧
        pm = (m : ℚ) / (np : ℚ) * 100 ∧ ps = (s : ℚ) / (np : ℚ) * 100) ∧
    (∀ (c : TrialCtx) (st st' : St) (pm ps : ℚ) (np : Int) (s m : Nat),
      attemptOnce c st = (st', .ok pm ps) →
      pyInt c.numPkt = some np →
      c.oracle st.attempt = (some s, some m) →
      0 < np → (s : Int) ≤ np → (m : Int) ≤ np →
      (0 ≤ ps ∧ ps ≤ 100) ∧ (0 ≤ pm ∧ pm ≤ 100)) ∧
    (∀ (c : TrialCtx) (a : String) (st : St) (per100 : Nat),
      RETRY ≤ per100 →
      attenStep c a st per100 =
        .inr ({ st with pmVar := 100, psVar := 100, perMax := 100,
                        rows := st.rows ++ [mkRow c a 100 100] }, per100) ∧
      (mkRow c a 100 100).perMaster = 100 ∧ (mkRow c a 100 100).perSlave = 100) := by
  refine ⟨?_, ?_, ?_⟩
  · intro c st st' pm ps h
    obtain ⟨np, s, m, hn, hz, ho, hpm, hps, _⟩ := attemptOnce_ok c st st' pm ps h
    exact ⟨np, s, m, hn, hz, ho, hpm, hps⟩
  · intro c st st' pm ps np s m h hn ho hpos hs hm
    obtain ⟨np', s', m', hn', hz', ho', hpm, hps, _⟩ := attemptOnce_ok c st st' pm ps h
    rw [hn] at hn'
    obtain rfl : np = np' := Option.some.inj hn'
    rw [ho] at ho'
    obtain ⟨hs1, hs2⟩ := Prod.mk.injEq .. ▸ ho'
    obtain rfl : s = s' := Option.some.inj hs1
    obtain rfl : m = m' := Option.some.inj hs2
    have hnpq : (0 : ℚ) < (np : ℚ) := by exact_mod_cast hpos
    have hbound : ∀ x : Nat, (x : Int) ≤ np →
        0 ≤ (x : ℚ) / (np : ℚ) * 100 ∧ (x : ℚ) / (np : ℚ) * 100 ≤ 100 := by
      intro x hx
      have hxq : (x : ℚ) ≤ (np : ℚ) := by exact_mod_cast hx
      constructor
      · positivity
      · have h1 : (x : ℚ) / (np : ℚ) ≤ 1 := (div_le_one hnpq).mpr hxq
        calc (x : ℚ) / (np : ℚ) * 100 ≤ 1 * 100 :=
              mul_le_mul_of_nonneg_right h1 (by norm_num)
          _ = 100 := one_mul 100
    exact ⟨hps ▸ hbound s hs, hpm ▸ hbound m hm⟩
  · intro c a st per100 h
    exact ⟨attenStep_giveup c a st per100 h, rfl, rfl⟩

/-- Witness for C8 at a concrete attempt (counts 2500 and 5000 of 5000
requested): the PER values 50 and 100 lie in [0, 100]. -/
theorem claim_c8_witness :
    ((0 : ℚ) ≤ 50 ∧ (50 : ℚ) ≤ 100) ∧ ((0 : ℚ) ≤ 100 ∧ (100 : ℚ) ≤ 100) :=
  claim_c8.2.1
    { packetLen := "250", numPkt := "5000", phy := "1", txPower := "0",
      chanV := "0", delayS := "1", oracle := fun _ => (some 2500, some 5000) }
    { rows := [], perMax := 0, pmVar := 0, psVar := 0, devCmds := 0, attempt := 0 }
    { rows := [], perMax := 0, pmVar := 0, psVar := 0, devCmds := 15, attempt := 1 }
    100 50 5000 2500 5000 (by decide) (by decide) (by decide)
    (by decide) (by decide) (by decide)

/-- Claim C5: with no explicit attenuation list, for every step S > 0 the
default sequence is exactly the values 20, 20+S, 20+2S, ... strictly
below 90 followed by a single appended 90; for S = 0 it is exactly
[20, 70, 90] (lines 90-97). -/
theorem claim_c5 :
    (∀ S : Int, 0 < S →
      ∃ n, defaultAttens S =
          ((List.range n).map fun k => 20 + S * (k : Int)) ++ [90] ∧
        ∀ k : Nat, (20 + S * (k : Int) < 90 ↔ k < n)) ∧
    defaultAttens 0 = [20, 70, 90] := by
  refine ⟨?_, by decide⟩
  intro S hS
  refine ⟨((90 - 20 : Int).toNat + S.toNat - 1) / S.toNat, ?_, ?_⟩
  · unfold defaultAttens pythonRange
    rw [if_neg hS.ne', if_pos hS]
  · intro k
    set s := S.toNat with hs_def
    have hs0 : 0 < s := by omega
    have hSs : S = (s : Int) := by omega
    have hn : ((90 - 20 : Int).toNat + s - 1) / s = 69 / s + 1 := by
      rw [show (90 - 20 : Int).toNat = 70 from rfl,
          show 70 + s - 1 = 69 + s by omega]
      exact Nat.add_div_right 69 hs0
    have h1 : (20 + S * (k : Int) < 90) ↔ ((s : Int) * (k : Int) < 70) := by
      rw [hSs]
      constructor <;> intro h <;> linarith
    have h2 : ((s : Int) * (k : Int) < 70) ↔ (s * k < 70) := by
      exact_mod_cast Iff.rfl
    have h3 : (s * k < 70) ↔ (k * s ≤ 69) := by
      rw [Nat.mul_comm]
      exact Nat.lt_succ_iff
    rw [h1, h2, h3, hn, Nat.lt_succ_iff]
    exact (Nat.le_div_iff_mul_le hs0).symm

/-- Witness for C5 at step size 7: the default list is the multiples of 7
from 20 up to strictly below 90, then 90. -/
theorem claim_c5_witness :
    (0 : Int) < 7 ∧
    ∃ n, defaultAttens 7 =
        ((List.range n).map fun k => 20 + 7 * (k : Int)) ++ [90] ∧
      ∀ k : Nat, (20 + 7 * (k : Int) < 90 ↔ k < n) :=
  ⟨by decide, claim_c5.1 7 (by decide)⟩

/-! ## Lemmas about the product enumeration -/

theorem prod2_nil {α β : Type} (m : List β) : prod2 ([] : List α) m = [] := rfl

theorem prod2_cons {α β : Type} (a : α) (l : List α) (m : List β) :
    prod2 (a :: l) m = (m.map fun b => (a, b)) ++ prod2 l m := by
  simp [prod2]

theorem sweepTuples_eq (pls nps phs tps chs : List String) :
    sweepTuples pls nps phs tps chs =
      prod2 pls (prod2 nps (prod2 phs (prod2 tps chs))) := by
  simp only [sweepTuples, prod2, List.map_flatMap, List.map_map, Function.comp_def]

theorem prod2_length {α β : Type} (l : List α) (m : List β) :
    (prod2 l m).length = l.length * m.length := by
  induction l with
  | nil => simp [prod2_nil]
  | cons a l ih =>
    rw [prod2_cons]
    simp only [List.length_append, List.length_map, List.length_cons, ih]
    ring

theorem prod2_mem {α β : Type} (l : List α) (m : List β) (x : α × β) :
    x ∈ prod2 l m ↔ x.1 ∈ l ∧ x.2 ∈ m := by
  obtain ⟨a, b⟩ := x
  simp only [prod2, List.mem_flatMap, List.mem_map]
  constructor
  · rintro ⟨a', ha', b', hb', heq⟩
    obtain ⟨rfl, rfl⟩ := Prod.mk.injEq .. ▸ heq
    exact ⟨ha', hb'⟩
  · rintro ⟨ha, hb⟩
    exact ⟨a, ha, b, hb, rfl⟩

theorem count_eq_one_of_mem_nodup {α : Type} [BEq α] [LawfulBEq α]
    {l : List α} {a : α} (h : l.Nodup) (ha : a ∈ l) : l.count a = 1 := by
  induction l with
  | nil => cases ha
  | cons c l ih =>
    rw [List.count_cons]
    rcases List.mem_cons.mp ha with rfl | hmem
    · have hcl : a ∉ l := (List.nodup_cons.mp h).1
      simp [List.count_eq_zero.mpr hcl]
    · have hne : a ≠ c := by
        rintro rfl
        exact (List.nodup_cons.mp h).1 hmem
      simp [ih (List.nodup_cons.mp h).2 hmem, hne, Ne.symm hne]

theorem count_map_mk {α β : Type} [BEq α] [LawfulBEq α] [BEq β] [LawfulBEq β]
    [DecidableEq α] (m : List β) (x a : α) (b : β) :
    ((m.map fun y => (x, y)).count (a, b)) = if x = a then m.count b else 0 := by
  induction m with
  | nil => simp
  | cons c m ih =>
    simp only [List.map_cons, List.count_cons, ih, Prod.mk.injEq]
    by_cases hxa : x = a
    · subst hxa
      by_cases hbc : b = c
      · simp [hbc]
      · simp [hbc]
        rw [show ((x, c) == (x, b)) = (c == b) by simp [instBEqProd]]
    · simp [hxa]

theorem prod2_count {α β : Type} [BEq α] [LawfulBEq α] [BEq β] [LawfulBEq β]
    [DecidableEq α] (l : List α) (m : List β) (a : α) (b : β) :
    (prod2 l m).count (a, b) = l.count a * m.count b := by
  induction l with
  | nil => simp [prod2_nil]
  | cons c l ih =>
    rw [prod2_cons, List.count_append, count_map_mk, ih, List.count_cons]
    by_cases hac : a = c
    · subst hac
      simp [Nat.add_mul]
      ring
    · have hca : ¬ c = a := fun h => hac h.symm
      simp [hac, hca]

theorem flatMap_getElem_eq {α β : Type} (f : α → List β) (cLen : Nat)
    (hc : ∀ a, (f a).length = cLen) :
    ∀ (l : List α) (i j : Nat) (a : α), l[i]? = some a → j < cLen →
      (l.flatMap f)[i * cLen + j]? = (f a)[j]? := by
  intro l
  induction l with
  | nil => intro i j a ha; simp at ha
  | cons x l ih =>
    intro i j a ha hj
    cases i with
    | zero =>
      simp only [List.getElem?_cons_zero, Option.some.injEq] at ha
      cases ha
      rw [List.flatMap_cons, Nat.zero_mul, Nat.zero_add,
        List.getElem?_append_left (by rw [hc x]; exact hj)]
    | succ i =>
      simp only [List.getElem?_cons_succ] at ha
      rw [List.flatMap_cons, Nat.succ_mul,
        show i * cLen + cLen + j = cLen + (i * cLen + j) by ring,
        List.getElem?_append_right (by rw [hc x]; exact Nat.le_add_right _ _),
        hc x, Nat.add_sub_cancel_left]
      exact ih i j a ha hj

theorem prod2_getElem {α β : Type} (l : List α) (m : List β) (i j : Nat)
    (a : α) (b : β) (ha : l[i]? = some a) (hb : m[j]? = some b) :
    (prod2 l m)[i * m.length + j]? = some (a, b) := by
  have hj : j < m.length := by
    by_contra hcon
    rw [List.getElem?_eq_none (by omega)] at hb
    cases hb
  rw [prod2, flatMap_getElem_eq (fun a => m.map fun b => (a, b)) m.length
    (fun _ => List.length_map _ _) l i j a ha hj, List.getElem?_map, hb]
  rfl

/-- Claim C7: the sweep enumeration contains a 5-tuple iff each component
is in its list; its length is the product of the list lengths; when the
input lists have no duplicates every combination occurs exactly once;
and the element at nested-loop position
(((i1*|nps| + i2)*|phs| + i3)*|tps| + i4)*|chs| + i5 is exactly
(pls[i1], nps[i2], phs[i3], tps[i4], chs[i5]) — i.e. enumeration is in
nested iteration order, packet length outermost and channel innermost,
in the order the lists are given. -/
theorem claim_c7 (pls nps phs tps chs : List String) :
    (∀ x : String × String × String × String × String,
      x ∈ sweepTuples pls nps phs tps chs ↔
        x.1 ∈ pls ∧ x.2.1 ∈ nps ∧ x.2.2.1 ∈ phs ∧
          x.2.2.2.1 ∈ tps ∧ x.2.2.2.2 ∈ chs) ∧
    (sweepTuples pls nps phs tps chs).length =
      pls.length * (nps.length * (phs.length * (tps.length * chs.length))) ∧
    (pls.Nodup → nps.Nodup → phs.Nodup → tps.Nodup → chs.Nodup →
      ∀ x ∈ sweepTuples pls nps phs tps chs,
        (sweepTuples pls nps phs tps chs).count x = 1) ∧
    (∀ (i1 i2 i3 i4 i5 : Nat) (pl np phy tp ch : String),
      pls[i1]? = some pl → nps[i2]? = some np → phs[i3]? = some phy →
      tps[i4]? = some tp → chs[i5]? = some ch →
      (sweepTuples pls nps phs tps chs)[
        (((i1 * nps.length + i2) * phs.length + i3) * tps.length + i4) *
          chs.length + i5]? = some (pl, np, phy, tp, ch)) := by
  refine ⟨?_, ?_, ?_, ?_⟩
  · intro x
    rw [sweepTuples_eq, prod2_mem, prod2_mem, prod2_mem, prod2_mem]
  · rw [sweepTuples_eq, prod2_length, prod2_length, prod2_length, prod2_length]
  · intro h1 h2 h3 h4 h5 x hx
    obtain ⟨a, b, c, d, e⟩ := x
    rw [sweepTuples_eq] at hx ⊢
    obtain ⟨m1, m2⟩ := (prod2_mem _ _ _).mp hx
    obtain ⟨m2, m3⟩ := (prod2_mem _ _ _).mp m2
    obtain ⟨m3, m4⟩ := (prod2_mem _ _ _).mp m3
    obtain ⟨m4, m5⟩ := (prod2_mem _ _ _).mp m4
    rw [prod2_count, prod2_count, prod2_count, prod2_count,
      count_eq_one_of_mem_nodup h1 m1, count_eq_one_of_mem_nodup h2 m2,
      count_eq_one_of_mem_nodup h3 m3, count_eq_one_of_mem_nodup h4 m4,
      count_eq_one_of_mem_nodup h5 m5]
  · intro i1 i2 i3 i4 i5 pl np phy tp ch h1 h2 h3 h4 h5
    have g45 : (prod2 tps chs)[i4 * chs.length + i5]? = some (tp, ch) :=
      prod2_getElem tps chs i4 i5 tp ch h4 h5
    have g3 : (prod2 phs (prod2 tps chs))[
        i3 * (prod2 tps chs).length + (i4 * chs.length + i5)]? =
        some (phy, tp, ch) :=
      prod2_getElem phs (prod2 tps chs) i3 _ phy (tp, ch) h3 g45
    have g2 : (prod2 nps (prod2 phs (prod2 tps chs)))[
        i2 * (prod2 phs (prod2 tps chs)).length +
          (i3 * (prod2 tps chs).length + (i4 * chs.length + i5))]? =
        some (np, phy, tp, ch) :=
      prod2_getElem nps (prod2 phs (prod2 tps chs)) i2 _ np (phy, tp, ch) h2 g3
    have g1 : (prod2 pls (prod2 nps (prod2 phs (prod2 tps chs))))[
        i1 * (prod2 nps (prod2 phs (prod2 tps chs))).length +
          (i2 * (prod2 phs (prod2 tps chs)).length +
            (i3 * (prod2 tps chs).length + (i4 * chs.length + i5)))]? =
        some (pl, np, phy, tp, ch) :=
      prod2_getElem pls (prod2 nps (prod2 phs (prod2 tps chs))) i1 _ pl
        (np, phy, tp, ch) h1 g2
    rw [sweepTuples_eq]
    simp only [prod2_length] at g1
    rw [show (((i1 * nps.length + i2) * phs.length + i3) * tps.length + i4) *
          chs.length + i5 =
        i1 * (nps.length * (phs.length * (tps.length * chs.length))) +
          (i2 * (phs.length * (tps.length * chs.length)) +
            (i3 * (tps.length * chs.length) + (i4 * chs.length + i5))) by ring]
    exact g1

/-- Witness for C7: on concrete duplicate-free lists, the combination
("a","c","d","e","f") occurs exactly once. -/
theorem claim_c7_witness :
    (sweepTuples ["a", "b"] ["c"] ["d"] ["e"] ["f", "g"]).count
      ("a", "c", "d", "e", "f") = 1 :=
  (claim_c7 ["a", "b"] ["c"] ["d"] ["e"] ["f", "g"]).2.2.1
    (by decide) (by decide) (by decide) (by decide) (by decide)
    ("a", "c", "d", "e", "f") (by decide)

/-! ## Startup failure points (claim C9) -/

theorem splitCommaChars_ne_nil (cs : List Char) : splitCommaChars cs ≠ [] := by
  cases cs with
  | nil => simp [splitCommaChars]
  | cons c cs =>
    unfold splitCommaChars
    split
    · split <;> simp
    · split <;> simp

theorem pySplitComma_ne_nil (s : String) : pySplitComma s ≠ [] := by
  unfold pySplitComma
  intro h
  exact splitCommaChars_ne_nil s.data (List.map_eq_nil_iff.mp h)

theorem sweepTuples_ne_nil (pls nps phs tps chs : List String)
    (h1 : pls ≠ []) (h2 : nps ≠ []) (h3 : phs ≠ []) (h4 : tps ≠ []) (h5 : chs ≠ []) :
    sweepTuples pls nps phs tps chs ≠ [] := by
  apply List.ne_nil_of_length_pos
  rw [sweepTuples_eq, prod2_length, prod2_length, prod2_length, prod2_length]
  exact Nat.mul_pos (List.length_pos.mpr h1) (Nat.mul_pos (List.length_pos.mpr h2)
    (Nat.mul_pos (List.length_pos.mpr h3) (Nat.mul_pos (List.length_pos.mpr h4)
      (List.length_pos.mpr h5))))

/-- With a non-numeric delay string, the very first trial attempt crashes
at sleep(int(args.delay)) (line 171) after the 7 HCI commands of lines
152-169 have been issued, so the whole run dies there: no retry, no row. -/
theorem runSweep_delay_crash (pls nps phs tps chs attens : List String)
    (delayS limitS : String) (oracle : Nat → Option Nat × Option Nat)
    (hpl : pls ≠ []) (hnp : nps ≠ []) (hph : phs ≠ []) (htp : tps ≠ [])
    (hch : chs ≠ []) (hat : attens ≠ []) (hd : pyInt delayS = none) :
    runSweep pls nps phs tps chs attens delayS limitS oracle =
      { rows := [], perMax := 0, devCmds := 7,
        outcome := .crashed .valueErrorDelay } := by
  obtain ⟨t, ts, htuples⟩ := List.exists_cons_of_ne_nil
    (sweepTuples_ne_nil pls nps phs tps chs hpl hnp hph htp hch)
  obtain ⟨a, as, hattens⟩ := List.exists_cons_of_ne_nil hat
  obtain ⟨pl, np, phy, tp, ch⟩ := t
  have h1 : ∀ st : St, attemptOnce
      { packetLen := pl, numPkt := np, phy := phy, txPower := tp,
        chanV := ch, delayS := delayS, oracle := oracle } st =
      ({ st with attempt := st.attempt + 1, devCmds := st.devCmds + 7 },
       .crash .valueErrorDelay) := by
    intro st
    simp [attemptOnce, hd]
  have h2 : ∀ st : St, attemptLoop
      { packetLen := pl, numPkt := np, phy := phy, txPower := tp,
        chanV := ch, delayS := delayS, oracle := oracle } st 0 =
      ({ st with attempt := st.attempt + 1, devCmds := st.devCmds + 7 }, 0,
       .crash .valueErrorDelay) := by
    intro st
    simp [attemptLoop, RETRY, attemptLoopAux, h1]
  have h3 : attenStep
      { packetLen := pl, numPkt := np, phy := phy, txPower := tp,
        chanV := ch, delayS := delayS, oracle := oracle } a
      { rows := [], perMax := 0, pmVar := 0, psVar := 0, devCmds := 0,
        attempt := 0 } 0 =
      .inl ({ rows := [], perMax := 0, pmVar := 0, psVar := 0, devCmds := 7,
              attempt := 1 }, .valueErrorDelay) := by
    simp [attenStep, h2]
  have h4 : attensLoop
      { packetLen := pl, numPkt := np, phy := phy, txPower := tp,
        chanV := ch, delayS := delayS, oracle := oracle } attens
      { rows := [], perMax := 0, pmVar := 0, psVar := 0, devCmds := 0,
        attempt := 0 } 0 =
      .inl ({ rows := [], perMax := 0, pmVar := 0, psVar := 0, devCmds := 7,
              attempt := 1 }, .valueErrorDelay) := by
    rw [hattens]
    simp only [attensLoop, h3]
  have h5 : tuplesLoop delayS oracle attens (sweepTuples pls nps phs tps chs)
      { rows := [], perMax := 0, pmVar := 0, psVar := 0, devCmds := 0,
        attempt := 0 } =
      .inl ({ rows := [], perMax := 0, pmVar := 0, psVar := 0, devCmds := 7,
              attempt := 1 }, .valueErrorDelay) := by
    rw [htuples]
    simp only [tuplesLoop, h4]
  simp only [runSweep, h5]

/-- Claim C9, counterexample: a malformed delay value does not fail at
argument-parsing time: the run dies mid-trial with 7 device commands
already issued; a malformed PER limit fails only after the entire sweep,
with both result rows already written. -/
theorem claim_c9_counterexample :
    (dtmSweepMain
      { delay := "abc", attens := some "20,90" }
      (fun _ => (some 5000, some 5000))).outcome = .crashed .valueErrorDelay ∧
    (dtmSweepMain
      { delay := "abc", attens := some "20,90" }
      (fun _ => (some 5000, some 5000))).devCmds = 7 ∧
    (dtmSweepMain
      { delay := "1", limit := "abc", attens := some "20,90" }
      (fun _ => (some 5000, some 5000))).outcome = .crashed .valueErrorLimit ∧
    (dtmSweepMain
      { delay := "1", limit := "abc", attens := some "20,90" }
      (fun _ => (some 5000, some 5000))).rows.length = 2 := by
  decide

/-- Claim C9 as amended: only a malformed step size (and only when no
explicit attenuation list is given) fails before any trial, device
command or write (line 91); a malformed delay fails during the first
trial attempt, after 7 device commands, before any row is written
(line 171); a malformed PER limit fails only after the whole sweep has
completed, with every result row already written (line 235). -/
theorem claim_c9 :
    (∀ (a : Args) (oracle : Nat → Option Nat × Option Nat),
      a.attens = none → pyInt a.step = none →
      dtmSweepMain a oracle =
        { rows := [], perMax := 0, devCmds := 0,
          outcome := .crashed .valueErrorStep }) ∧
    (∀ (a : Args) (oracle : Nat → Option Nat × Option Nat) (astr : String),
      a.attens = some astr → pyInt a.delay = none →
      dtmSweepMain a oracle =
        { rows := [], perMax := 0, devCmds := 7,
          outcome := .crashed .valueErrorDelay }) ∧
    (∀ (pls nps phs tps chs attens : List String) (delayS limitS : String)
       (oracle : Nat → Option Nat × Option Nat) (st : St),
      tuplesLoop delayS oracle attens (sweepTuples pls nps phs tps chs)
        { rows := [], perMax := 0, pmVar := 0, psVar := 0, devCmds := 0,
          attempt := 0 } = .inr st →
      pyFloat limitS = none →
      runSweep pls nps phs tps chs attens delayS limitS oracle =
        { rows := st.rows, perMax := st.perMax, devCmds := st.devCmds + 2,
          outcome := .crashed .valueErrorLimit }) := by
  refine ⟨?_, ?_, ?_⟩
  · intro a oracle ha hs
    simp [dtmSweepMain, ha, hs]
  · intro a oracle astr ha hd
    simp only [dtmSweepMain, ha]
    exact runSweep_delay_crash _ _ _ _ _ _ _ _ oracle
      (pySplitComma_ne_nil _) (pySplitComma_ne_nil _) (pySplitComma_ne_nil _)
      (pySplitComma_ne_nil _) (pySplitComma_ne_nil _) (pySplitComma_ne_nil _) hd
  · intro pls nps phs tps chs attens delayS limitS oracle st htl hl
    simp only [runSweep, htl, hl]

/-- Witness for C9: a concrete run with non-numeric delay "x" dies with
ValueError after 7 device commands and no rows. -/
theorem claim_c9_witness :
    dtmSweepMain { delay := "x", attens := some "20" } (fun _ => (some 1, some 1)) =
      { rows := [], perMax := 0, devCmds := 7,
        outcome := .crashed .valueErrorDelay } :=
  claim_c9.2.1 { delay := "x", attens := some "20" } (fun _ => (some 1, some 1))
    "20" rfl (by decide)
